import Mathlib

set_option maxRecDepth 10000

/-!
Shallow embedding of the email-normalization core of the ai-gmail-filter
repository (`src/utils/email_parser.py`) and of its classification-response
parser (`src/modules/llm/analyzer.py`), with proofs about the embedded
definitions.  Python strings are modelled as lists of characters
(`Str := List Char`), bytes as lists of naturals below 256, Python dicts of
strings as insertion-ordered association lists, and functions that can raise
as `Option`-valued functions.
-/

namespace GmailFilter

/-- Python strings, modelled as lists of characters. -/
abbrev Str := List Char

/-- The characters that Python's `str`-pattern character class `\s` (and
`str.split()` / `str.strip()` with no arguments) treats as whitespace:
the Unicode whitespace characters. -/
def pySpace (c : Char) : Bool :=
  c == ' ' || c == '\t' || c == '\n' || c == '\r' ||
  c.toNat == 0x0b || c.toNat == 0x0c ||
  (decide (0x1c ≤ c.toNat) && decide (c.toNat ≤ 0x1f)) ||
  c.toNat == 0x85 || c.toNat == 0xa0 || c.toNat == 0x1680 ||
  (decide (0x2000 ≤ c.toNat) && decide (c.toNat ≤ 0x200a)) ||
  c.toNat == 0x2028 || c.toNat == 0x2029 || c.toNat == 0x202f ||
  c.toNat == 0x205f || c.toNat == 0x3000

/-- Python `str.lower()`; the repository only lowercases ASCII header names,
for which `Char.toLower` agrees with Python's case mapping. -/
def pyLower (s : Str) : Str := s.map Char.toLower

/-- Python `str.upper()`; the repository only uppercases LLM responses, whose
relevant tokens are ASCII, for which `Char.toUpper` agrees with Python. -/
def pyUpper (s : Str) : Str := s.map Char.toUpper

/-- Python's substring operator `pat in s` on strings: true exactly when
`pat` occurs contiguously somewhere in `s`. -/
def pyIn (pat : Str) : Str → Bool
  | [] => pat.isPrefixOf []
  | s@(_ :: rest) => pat.isPrefixOf s || pyIn pat rest

/-- A Python `dict` with string keys, modelled as an insertion-ordered
association list; `d[k] = v` overwrites the existing binding in place if `k`
is already a key and appends a new binding otherwise. -/
def dictSet : List (Str × Str) → Str → Str → List (Str × Str)
  | [], k, v => [(k, v)]
  | (k', v') :: rest, k, v =>
    if k' = k then (k, v) :: rest else (k', v') :: dictSet rest k v

/-- Python `d.get(k, dflt)` on the association-list dict model. -/
def dictGet : List (Str × Str) → Str → Str → Str
  | [], _, dflt => dflt
  | (k', v') :: rest, k, dflt => if k' = k then v' else dictGet rest k dflt

/-- Value of a character in the standard base64 alphabet (`none` for
characters outside it), as in binascii's decoding table. -/
def b64Index (c : Char) : Option Nat :=
  if 'A' ≤ c ∧ c ≤ 'Z' then some (c.toNat - 'A'.toNat)
  else if 'a' ≤ c ∧ c ≤ 'z' then some (c.toNat - 'a'.toNat + 26)
  else if '0' ≤ c ∧ c ≤ '9' then some (c.toNat - '0'.toNat + 52)
  else if c = '+' then some 62
  else if c = '/' then some 63
  else none

/-- Main loop of CPython's `binascii.a2b_base64` in non-strict mode (the mode
used by `base64.b64decode` and hence `base64.urlsafe_b64decode`): characters
outside the alphabet are discarded; a `'='` seen with at least two characters
in the current quad and enough accumulated padding finishes the decode and
ignores the rest of the input; at the end of input a partially filled quad is
an error (`none`), matching the "Invalid padding" / "number of data
characters cannot be 1 more than a multiple of 4" errors. -/
def a2b_base64_go : List Char → Nat → Nat → Nat → List Nat → Option (List Nat)
  | [], quad_pos, _, _, acc =>
    if quad_pos = 0 then some acc.reverse else none
  | c :: rest, quad_pos, leftchar, pads, acc =>
    if c = '=' then
      if 2 ≤ quad_pos ∧ 4 ≤ quad_pos + (pads + 1) then some acc.reverse
      else a2b_base64_go rest quad_pos leftchar (pads + 1) acc
    else
      match b64Index c with
      | none => a2b_base64_go rest quad_pos leftchar pads acc
      | some v =>
        match quad_pos with
        | 0 => a2b_base64_go rest 1 v 0 acc
        | 1 => a2b_base64_go rest 2 (v % 16) 0 ((leftchar * 4 + v / 16) :: acc)
        | 2 => a2b_base64_go rest 3 (v % 4) 0 ((leftchar * 16 + v / 4) :: acc)
        | _ => a2b_base64_go rest 0 0 0 ((leftchar * 64 + v) :: acc)

/-- Python `base64.urlsafe_b64decode` on a `str` argument: encode as ASCII
(fail on any code point at or above 128), translate `'-'`/`'_'` to
`'+'`/`'/'`, then run the base64 decoder; `none` models a raised exception. -/
def urlsafe_b64decode (s : Str) : Option (List Nat) :=
  if s.all (fun c => c.toNat < 128) then
    a2b_base64_go
      (s.map (fun c => if c = '-' then '+' else if c = '_' then '/' else c))
      0 0 0 []
  else none

/-- Strict UTF-8 decoding of a byte list, as Python `bytes.decode('utf-8')`:
rejects invalid start bytes, truncated sequences, overlong encodings,
surrogate code points and values above 0x10FFFF. -/
def utf8_decode : List Nat → Option Str
  | [] => some []
  | b :: rest =>
    if b < 0x80 then
      (utf8_decode rest).map (fun s => Char.ofNat b :: s)
    else if b < 0xc2 then none
    else if b < 0xe0 then
      match rest with
      | b1 :: rest1 =>
        if 0x80 ≤ b1 ∧ b1 < 0xc0 then
          (utf8_decode rest1).map
            (fun s => Char.ofNat ((b - 0xc0) * 64 + (b1 - 0x80)) :: s)
        else none
      | [] => none
    else if b < 0xf0 then
      match rest with
      | b1 :: b2 :: rest2 =>
        if (if b = 0xe0 then 0xa0 else 0x80) ≤ b1 ∧
            b1 < (if b = 0xed then 0xa0 else 0xc0) ∧
            0x80 ≤ b2 ∧ b2 < 0xc0 then
          (utf8_decode rest2).map
            (fun s =>
              Char.ofNat ((b - 0xe0) * 4096 + (b1 - 0x80) * 64 + (b2 - 0x80)) :: s)
        else none
      | _ => none
    else if b < 0xf5 then
      match rest with
      | b1 :: b2 :: b3 :: rest3 =>
        if (if b = 0xf0 then 0x90 else 0x80) ≤ b1 ∧
            b1 < (if b = 0xf4 then 0x90 else 0xc0) ∧
            0x80 ≤ b2 ∧ b2 < 0xc0 ∧ 0x80 ≤ b3 ∧ b3 < 0xc0 then
          (utf8_decode rest3).map
            (fun s =>
              Char.ofNat ((b - 0xf0) * 262144 + (b1 - 0x80) * 4096 +
                (b2 - 0x80) * 64 + (b3 - 0x80)) :: s)
        else none
      | _ => none
    else none

/-- Python `bytes.decode('latin-1')`: total, byte `i` maps to `U+00i`. -/
def latin1_decode (bs : List Nat) : Str := bs.map Char.ofNat

/-- The function `decode_payload` of `src/utils/email_parser.py`:
base64url-decode the data and interpret the bytes by trying the encodings
utf-8, latin-1, ascii in order (latin-1 is total, so the ascii attempt and
the final `errors='replace'` fallback are unreachable); any decoding
exception is caught and yields the empty string. -/
def decode_payload (data : Str) : Str :=
  match urlsafe_b64decode data with
  | some bs =>
    match utf8_decode bs with
    | some s => s
    | none => latin1_decode bs
  | none => []

mutual
/-- A Gmail API message-part object, as consumed by the repository: the
`Option` fields model the presence of the corresponding dict keys (`headers`,
`mimeType`), and `body` models the two-level check `'body' in payload` /
`'data' in payload['body']`.  A missing `parts` key and an empty child list
are indistinguishable to every function of the repository (the loop over the
children of a part simply runs zero times), so children are modelled as a
possibly empty sequence `PartList`. -/
inductive Part : Type where
  | mk (headers : Option (List (Str × Str))) (mimeType : Option Str)
       (body : Option (Option Str)) (parts : PartList)

/-- An ordered sequence of child parts. -/
inductive PartList : Type where
  | nil
  | cons (p : Part) (ps : PartList)
end

/-- Header list of a part (presence of the `headers` key). -/
def Part.headers : Part → Option (List (Str × Str))
  | .mk h _ _ _ => h

/-- MIME type of a part (presence of the `mimeType` key). -/
def Part.mimeType : Part → Option Str
  | .mk _ m _ _ => m

/-- Payload data of a part: outer `Option` is the `body` key, inner `Option`
the `data` key inside it. -/
def Part.body : Part → Option (Option Str)
  | .mk _ _ b _ => b

/-- Child sequence of a part. -/
def Part.parts : Part → PartList
  | .mk _ _ _ p => p

mutual
/-- The function `extract_body_content` of `src/utils/email_parser.py`:
if the part carries payload data, decode it and append it to the HTML
accumulator when the mime type contains `"text/html"`, to the text
accumulator when it contains `"text/plain"`, and to neither otherwise;
then run the loop over the child parts. -/
def extract_body_content (payload : Part) (body_html body_text : Str) :
    Str × Str :=
  match payload with
  | .mk _ mimeType body parts =>
    let acc :=
      match body with
      | some (some data) =>
        let content := decode_payload data
        let mime_type := mimeType.getD []
        if pyIn "text/html".toList mime_type then
          (body_html ++ content, body_text)
        else if pyIn "text/plain".toList mime_type then
          (body_html, body_text ++ content)
        else (body_html, body_text)
      | _ => (body_html, body_text)
    extract_body_parts parts acc.1 acc.2

/-- The loop `for part in payload['parts']` of `extract_body_content`: each
child is passed the current accumulators, and its returned pair is then
appended onto the current accumulators. -/
def extract_body_parts (ps : PartList) (body_html body_text : Str) :
    Str × Str :=
  match ps with
  | .nil => (body_html, body_text)
  | .cons p rest =>
    let r := extract_body_content p body_html body_text
    extract_body_parts rest (body_html ++ r.1) (body_text ++ r.2)
end

/-- Remainder of `s` after the earliest occurrence of the literal `cl` in
`s`, or `none` when `cl` does not occur: this is where scanning resumes
after a non-greedy `.*?` followed by the literal `cl` has matched. -/
def dropAfterFirst (cl : Str) : Str → Option Str
  | [] => none
  | s@(_ :: rest) =>
    if cl.isPrefixOf s then some (s.drop cl.length)
    else dropAfterFirst cl rest

/-- Match of the pattern `op.*?cl` (for literal `op` and `cl`, with DOTALL)
at the head of `s`: returns the remainder after the leftmost-shortest match,
`none` when the pattern does not match at this position. -/
def matchBlock (op cl : Str) (s : Str) : Option Str :=
  if op.isPrefixOf s then dropAfterFirst cl (s.drop op.length) else none

/-- Scanning loop of `re.sub(op + '.*?' + cl, ' ', s, flags=re.DOTALL)` for
literal `op` and `cl`: each leftmost non-overlapping shortest match becomes
one space, and scanning resumes after it; on failure the scan advances one
character.  The fuel argument only makes the recursion structural; every
step consumes at least one character, so the `fuel = 0` filler arm is
unreachable from `subBlock`, which supplies `s.length`. -/
def subBlockF (op cl : Str) : Nat → Str → Str
  | _, [] => []
  | 0, s => s
  | fuel + 1, s@(c :: rest) =>
    match matchBlock op cl s with
    | some rem => ' ' :: subBlockF op cl fuel rem
    | none => c :: subBlockF op cl fuel rest

/-- One of the three block-stripping rewrites of `extract_text_from_html`
(`<script.*?</script>`, `<style.*?</style>`, `<head.*?</head>`). -/
def subBlock (op cl : Str) (s : Str) : Str := subBlockF op cl s.length s

/-- Match of the pattern `<br\s*/?>|<\/p>` at the head of `s`: the remainder
after the match, `none` when neither alternative matches here.  In
`<br\s*/?>` the whitespace run is consumed greedily; backtracking cannot
help, because a leftover whitespace character can match neither `/` nor
`>`. -/
def matchBrTag (s : Str) : Option Str :=
  if ("<br".toList).isPrefixOf s then
    match (s.drop 3).dropWhile pySpace with
    | '/' :: '>' :: r => some r
    | '>' :: r => some r
    | _ => none
  else if ("</p>".toList).isPrefixOf s then some (s.drop 4)
  else none

/-- Scanning loop of `re.sub(r'<br\s*/?>|<\/p>', '\n', s)`.  The fuel
argument only makes the recursion structural (each step consumes at least
one character; `subBrTags` supplies `s.length`). -/
def subBrTagsF : Nat → Str → Str
  | _, [] => []
  | 0, s => s
  | fuel + 1, s@(c :: rest) =>
    match matchBrTag s with
    | some rem => '\n' :: subBrTagsF fuel rem
    | none => c :: subBrTagsF fuel rest

/-- The break-tag rewrite of `extract_text_from_html`: every `<br>`-style
tag and every `</p>` becomes a newline. -/
def subBrTags (s : Str) : Str := subBrTagsF s.length s

/-- Match of the pattern `<[^>]+>` at the head of `s`: a `<`, at least one
character other than `>`, then `>`; returns the remainder after the match. -/
def matchAnyTag : Str → Option Str
  | '<' :: c2 :: rest =>
    if c2 = '>' then none
    else
      match (c2 :: rest).dropWhile (fun c => c ≠ '>') with
      | '>' :: r => some r
      | _ => none
  | _ => none

/-- Scanning loop of `re.sub(r'<[^>]+>', ' ', s)`.  The fuel argument only
makes the recursion structural (each step consumes at least one character;
`subAnyTags` supplies `s.length`). -/
def subAnyTagsF : Nat → Str → Str
  | _, [] => []
  | 0, s => s
  | fuel + 1, s@(c :: rest) =>
    match matchAnyTag s with
    | some rem => ' ' :: subAnyTagsF fuel rem
    | none => c :: subAnyTagsF fuel rest

/-- The remaining-tag rewrite of `extract_text_from_html`: every `<...>`
tag still present becomes one space. -/
def subAnyTags (s : Str) : Str := subAnyTagsF s.length s

/-- Models Python `html.unescape` on the basic character references
(`&amp;` `&lt;` `&gt;` `&quot;` `&nbsp;` `&#39;`); every other string
passes through unchanged at the position scanned.  No string that reaches
this step in the proofs below contains an ampersand, so only the behaviour
on `&`-free strings matters: on those the function is the identity, as
`html.unescape` is. -/
def unescape : Str → Str
  | [] => []
  | '&' :: 'a' :: 'm' :: 'p' :: ';' :: rest => '&' :: unescape rest
  | '&' :: 'l' :: 't' :: ';' :: rest => '<' :: unescape rest
  | '&' :: 'g' :: 't' :: ';' :: rest => '>' :: unescape rest
  | '&' :: 'q' :: 'u' :: 'o' :: 't' :: ';' :: rest => '"' :: unescape rest
  | '&' :: 'n' :: 'b' :: 's' :: 'p' :: ';' :: rest => Char.ofNat 0xa0 :: unescape rest
  | '&' :: '#' :: '3' :: '9' :: ';' :: rest => Char.ofNat 39 :: unescape rest
  | c :: rest => c :: unescape rest

/-- Scanning loop of `re.sub(runs of characters matching p, rep, s)` for a
single-character-class pattern such as `\s+` or `\n+`: a maximal run of
matching characters is replaced by the single character `rep`.  The flag
records whether the scan is currently inside a run. -/
def squeezeGo (p : Char → Bool) (rep : Char) : Bool → Str → Str
  | _, [] => []
  | inRun, c :: rest =>
    match p c, inRun with
    | true, true => squeezeGo p rep true rest
    | true, false => rep :: squeezeGo p rep true rest
    | false, _ => c :: squeezeGo p rep false rest

/-- The rewrite `re.sub(r'\s+', ' ', s)`: every whitespace run (newlines
included, since `\s` matches them) becomes one space. -/
def sub_ws (s : Str) : Str := squeezeGo pySpace ' ' false s

/-- The rewrite `re.sub(r'\n+', '\n', s)`: every newline run becomes one
newline. -/
def sub_nl (s : Str) : Str := squeezeGo (fun c => c == '\n') '\n' false s

/-- Removal of trailing whitespace, the right half of Python's
`str.strip()`. -/
def pyRStrip : Str → Str
  | [] => []
  | c :: rest =>
    let r := pyRStrip rest
    if r = [] ∧ pySpace c then [] else c :: r

/-- Python `str.strip()` with no arguments: remove leading and trailing
Unicode whitespace. -/
def pyStrip (s : Str) : Str := pyRStrip (s.dropWhile pySpace)

/-- The function `extract_text_from_html` of `src/utils/email_parser.py`:
the ordered rewrite pipeline reducing HTML to readable text.  The empty
accumulator yields the empty string (`if not html_content: return ""`). -/
def extract_text_from_html (html_content : Str) : Str :=
  if html_content = [] then []
  else
    let h1 := subBlock "<script".toList "</script>".toList html_content
    let h2 := subBlock "<style".toList "</style>".toList h1
    let h3 := subBlock "<head".toList "</head>".toList h2
    let h4 := subBrTags h3
    let h5 := subAnyTags h4
    let h6 := unescape h5
    let h7 := sub_ws h6
    let h8 := sub_nl h7
    pyStrip h8

/-- A Gmail API message object as consumed by `parse_email_content`: the
`Option` fields model the presence of the dict keys `id`, `payload`,
`labelIds` and `snippet`; the payload is a part whose `headers` key carries
the header list. -/
structure Message : Type where
  id : Option Str
  payload : Option Part
  labelIds : Option (List Str)
  snippet : Option Str

/-- The structured record returned by `parse_email_content`. -/
structure Email : Type where
  id : Str
  subject : Str
  sender : Str
  date : Str
  body : Str
  labels : List Str
  snippet : Str
deriving DecidableEq

/-- The function `parse_email_content` of `src/utils/email_parser.py`:
lowercase-keyed header dict with last-write-wins, defaulted subject/sender/
date, body extraction preferring accumulated plain text over reduced HTML,
and a final whitespace collapse.  `none` models the `KeyError` raised when
the `payload`, `headers` or `id` key is missing (the code indexes
`message['payload']['headers']` and `message['id']` directly, while
`labelIds` and `snippet` are read with `.get` defaults). -/
def parse_email_content (message : Message) : Option Email :=
  match message.payload with
  | none => none
  | some payload =>
    match payload.headers with
    | none => none
    | some hs =>
      let headers := hs.foldl (fun d h => dictSet d (pyLower h.1) h.2) []
      let subject := dictGet headers "subject".toList "(No Subject)".toList
      let sender := dictGet headers "from".toList "(No Sender)".toList
      let date := dictGet headers "date".toList "(No Date)".toList
      let bodies := extract_body_content payload [] []
      let body0 := if bodies.2 ≠ [] then bodies.2
                   else extract_text_from_html bodies.1
      let body := pyStrip (sub_ws body0)
      match message.id with
      | none => none
      | some i =>
        some { id := i, subject := subject, sender := sender, date := date,
               body := body, labels := message.labelIds.getD [],
               snippet := message.snippet.getD [] }

/-- Accumulator loop for Python `str.split()` with no arguments: split on
runs of whitespace, discarding empty fields. -/
def pySplitAux : Str → Str → List Str
  | [], cur => if cur = [] then [] else [cur.reverse]
  | c :: rest, cur =>
    if pySpace c then
      if cur = [] then pySplitAux rest []
      else cur.reverse :: pySplitAux rest []
    else pySplitAux rest (c :: cur)

/-- Python `str.split()` with no arguments. -/
def pySplit (s : Str) : List Str := pySplitAux s []

/-- The expression `response_text.split()[0].upper() if response_text.split()
else ""` of `EmailAnalyzer._parse_necessity_response`
(`src/modules/llm/analyzer.py`): the uppercased first whitespace-delimited
token, or the empty string when there is none. -/
def first_word (response_text : Str) : Str :=
  match pySplit response_text with
  | w :: _ => pyUpper w
  | [] => []

/-- The expression `response_text.split('\n')[0].upper() if '\n' in
response_text else response_text.upper()` of the same function: the
uppercased text before the first newline (the whole uppercased text when
there is no newline, which coincides with the text before the first
newline). -/
def first_line_upper (response_text : Str) : Str :=
  if response_text.contains '\n' then
    pyUpper (response_text.takeWhile (fun c => c ≠ '\n'))
  else pyUpper response_text

/-- The method `EmailAnalyzer._parse_necessity_response` of
`src/modules/llm/analyzer.py` (its `email_data` argument is used only for
logging and is dropped): empty response defaults to `true`; a first token
`YES`/`NO` (case-insensitively) decides directly; otherwise the uppercased
first line is scanned for the substrings `YES` and `NO`, an unambiguous
occurrence decides, and anything else defaults to `true`. -/
def parse_necessity_response (response_text : Str) : Bool :=
  if response_text = [] then true
  else if first_word response_text = "YES".toList then true
  else if first_word response_text = "NO".toList then false
  else
    let fl := first_line_upper response_text
    if pyIn "YES".toList fl && !(pyIn "NO".toList fl) then true
    else if pyIn "NO".toList fl && !(pyIn "YES".toList fl) then false
    else true

/-! Concrete fixtures used by the theorems below.  `"YQ=="` and `"Yg=="` are
the base64url encodings of `"a"` and `"b"`;
`"PHA-SGVsbG88L3A-PGJyLz48cD5Xb3JsZDwvcD4="` is the base64url encoding of
`"<p>Hello</p><br/><p>World</p>"`; `"cGxhaW4gdGV4dCB3aW5z"` of
`"plain text wins"`; `"PGI-aHRtbCBib2R5PC9iPg=="` of
`"<b>html body</b>"`. -/

/-- A text/plain leaf part whose payload decodes to `"a"`. -/
def textLeafA : Part :=
  Part.mk none (some "text/plain".toList) (some (some "YQ==".toList)) PartList.nil

/-- A text/plain leaf part whose payload decodes to `"b"`. -/
def textLeafB : Part :=
  Part.mk none (some "text/plain".toList) (some (some "Yg==".toList)) PartList.nil

/-- A payload-free multipart container with the two text leaves as
children. -/
def partSibling : Part :=
  Part.mk (some []) (some "multipart/alternative".toList) none
    (PartList.cons textLeafA (PartList.cons textLeafB PartList.nil))

/-- A message whose payload is `partSibling`. -/
def msgSiblingTexts : Message :=
  { id := some "m1".toList, payload := some partSibling,
    labelIds := none, snippet := none }

/-- The record `parse_email_content` produces for `msgSiblingTexts`. -/
def emailSibling : Email :=
  { id := "m1".toList, subject := "(No Subject)".toList,
    sender := "(No Sender)".toList, date := "(No Date)".toList,
    body := "aab".toList, labels := [], snippet := [] }

/-- A text/html leaf whose payload decodes to
`"<p>Hello</p><br/><p>World</p>"`. -/
def htmlLeafHello : Part :=
  Part.mk none (some "text/html".toList)
    (some (some "PHA-SGVsbG88L3A-PGJyLz48cD5Xb3JsZDwvcD4=".toList))
    PartList.nil

/-- A message with no plain-text content whose only leaf is
`htmlLeafHello`. -/
def msgHtmlOnly : Message :=
  { id := some "m2".toList,
    payload := some (Part.mk (some []) (some "multipart/alternative".toList)
      none (PartList.cons htmlLeafHello PartList.nil)),
    labelIds := none, snippet := none }

/-- A text/plain leaf whose payload decodes to `"plain text wins"`. -/
def textLeafPlain : Part :=
  Part.mk none (some "text/plain".toList)
    (some (some "cGxhaW4gdGV4dCB3aW5z".toList)) PartList.nil

/-- A text/html leaf whose payload decodes to `"<b>html body</b>"`. -/
def htmlLeafBody : Part :=
  Part.mk none (some "text/html".toList)
    (some (some "PGI-aHRtbCBib2R5PC9iPg==".toList)) PartList.nil

/-- A payload-free container holding both an HTML leaf and a plain-text
leaf (the HTML one first). -/
def partBoth : Part :=
  Part.mk (some []) (some "multipart/alternative".toList) none
    (PartList.cons htmlLeafBody (PartList.cons textLeafPlain PartList.nil))

/-- A message carrying both HTML and plain-text content. -/
def msgBoth : Message :=
  { id := some "m3".toList, payload := some partBoth,
    labelIds := none, snippet := none }

/-- The record `parse_email_content` produces for `msgBoth`: the body comes
from the plain-text accumulator. -/
def emailBoth : Email :=
  { id := "m3".toList, subject := "(No Subject)".toList,
    sender := "(No Sender)".toList, date := "(No Date)".toList,
    body := "plain text wins".toList, labels := [], snippet := [] }

/-- The duplicate-header list of the specification scenario. -/
def hsDup : List (Str × Str) :=
  [("From".toList, "a@x.com".toList), ("from".toList, "b@y.com".toList)]

/-- A message whose payload carries `hsDup` and no body content. -/
def msgDup : Message :=
  { id := some "m4".toList,
    payload := some (Part.mk (some hsDup) none none PartList.nil),
    labelIds := none, snippet := none }

/-- The record `parse_email_content` produces for `msgDup`. -/
def emailDup : Email :=
  { id := "m4".toList, subject := "(No Subject)".toList,
    sender := "b@y.com".toList, date := "(No Date)".toList,
    body := [], labels := [], snippet := [] }

/-- Claim C1 (code bug): on the message `msgSiblingTexts`, whose payload
tree bears exactly the two text/plain payloads `"a"` and `"b"` in this
sibling order, `parse_email_content` produces the body `"aab"`, not the
pre-order concatenation `"ab"` with each fragment appearing exactly once
that the claim states: `extract_body_content` passes the accumulated text
into each child call and then appends the child's full return value — which
already contains that accumulated text — onto the accumulator again,
duplicating every fragment that precedes a later sibling. -/
theorem c1_preorder_concatenation_fails :
    (parse_email_content msgSiblingTexts).map Email.body = some "aab".toList ∧
    extract_body_content partSibling [] [] = ([], "aab".toList) := by decide

/-- Claim C2, counterexample: the block-stripping of
`extract_text_from_html` is not case-insensitive — an upper-case
`<SCRIPT>...</SCRIPT>` input is not rewritten like the lower-case spelling
(the script body `x` survives in one and is stripped in the other). -/
theorem c2_counterexample :
    extract_text_from_html "<SCRIPT>x</SCRIPT>".toList ≠
      extract_text_from_html "<script>x</script>".toList := by decide

/-- Claim C2 as amended: the regexes of `extract_text_from_html` carry no
IGNORECASE flag, so the stripping of script/style/head blocks and the
newline replacement of break tags are case-sensitive.  A lower-case
`<script>x</script>` (likewise style, head) is stripped to a single space,
while the upper-case spelling keeps the enclosed text and only loses the
two tags to the later generic-tag rewrite; a lower-case `<br>` becomes a
newline in the break-tag pass while `<BR>` does not (it is removed by the
generic-tag rewrite instead, which the final whitespace collapse happens
to make observationally equal for the break tag, but not for the block
tags). -/
theorem c2_case_sensitive_rewrites :
    extract_text_from_html "<script>x</script>".toList = [] ∧
    extract_text_from_html "<SCRIPT>x</SCRIPT>".toList = "x".toList ∧
    extract_text_from_html "<style>x</style>".toList = [] ∧
    extract_text_from_html "<STYLE>x</STYLE>".toList = "x".toList ∧
    extract_text_from_html "<head>x</head>".toList = [] ∧
    extract_text_from_html "<HEAD>x</HEAD>".toList = "x".toList ∧
    subBrTags "a<br>b".toList = "a\nb".toList ∧
    subBrTags "a<BR>b".toList = "a<BR>b".toList ∧
    extract_text_from_html "a<br>b".toList = "a b".toList ∧
    extract_text_from_html "a<BR>b".toList = "a b".toList := by decide

/-- Claim C3, counterexample: on `"<p>Hello</p><br/><p>World</p>"` the
reduction `extract_text_from_html` does not return `"Hello\nWorld"`: the
whitespace-collapse step inside the pipeline is `re.sub(r'\s+', ' ', ...)`,
and `\s` matches the newlines just inserted, so they are already collapsed
to spaces there. -/
theorem c3_counterexample :
    extract_text_from_html "<p>Hello</p><br/><p>World</p>".toList ≠
      "Hello\nWorld".toList := by decide

/-- Claim C3 as amended: on the input `"<p>Hello</p><br/><p>World</p>"`
with no plain-text content, `extract_text_from_html` returns
`"Hello World"` directly (its internal whitespace collapse includes the
newlines inserted for `</p>` and `<br/>`, so the newline-collapse step that
follows finds none left), and the final assembly yields the body
`"Hello World"` as the claim states. -/
theorem c3_hello_world_round_trip :
    extract_text_from_html "<p>Hello</p><br/><p>World</p>".toList =
      "Hello World".toList ∧
    (parse_email_content msgHtmlOnly).map Email.body =
      some "Hello World".toList := by decide

/-- Claim C7: the classification-response parser maps
`"YES - order confirmation"` to necessary, `"no, this is spam"` to not
necessary, the empty response to necessary, and the ambiguous
`"Maybe? unclear"` to necessary. -/
theorem c7_response_scenarios :
    parse_necessity_response "YES - order confirmation".toList = true ∧
    parse_necessity_response "no, this is spam".toList = false ∧
    parse_necessity_response [] = true ∧
    parse_necessity_response "Maybe? unclear".toList = true := by decide

/-- Claim C6: `decode_payload` is total by construction in this embedding
(it is a Lean function on arbitrary strings); whenever base64url decoding
fails — `urlsafe_b64decode` returns `none`, modelling the exception caught
by the `try`/`except` — the function returns the empty string, and a part
carrying such a malformed payload contributes nothing to either
accumulator: extraction over it proceeds exactly as over the same part with
no payload at all, so traversal of its sibling and child parts is
unaffected. -/
theorem c6_malformed_payload_harmless (data : Str)
    (hdr : Option (List (Str × Str))) (m : Option Str) (ps : PartList)
    (bh bt : Str) (h : urlsafe_b64decode data = none) :
    decode_payload data = [] ∧
    extract_body_content (Part.mk hdr m (some (some data)) ps) bh bt =
      extract_body_content (Part.mk hdr m none ps) bh bt := by
  have hd : decode_payload data = [] := by
    unfold decode_payload
    rw [h]
  refine ⟨hd, ?_⟩
  simp only [extract_body_content, hd]
  split <;> simp

/-- Witness for C6: the payload `"Y"` (one base64 data character) is
malformed, decodes to the empty string, and a part carrying it together
with a well-formed text sibling extracts exactly as if it had no payload. -/
theorem c6_witness :
    urlsafe_b64decode "Y".toList = none ∧
    decode_payload "Y".toList = [] ∧
    extract_body_content
        (Part.mk none (some "text/plain".toList) (some (some "Y".toList))
          (PartList.cons textLeafB PartList.nil)) [] [] =
      extract_body_content
        (Part.mk none (some "text/plain".toList) none
          (PartList.cons textLeafB PartList.nil)) [] [] := by
  refine ⟨by decide, ?_⟩
  exact c6_malformed_payload_harmless "Y".toList none
    (some "text/plain".toList) (PartList.cons textLeafB PartList.nil) [] []
    (by decide)

/-- Claim C9: `parse_email_content` fails (raises a lookup error, modelled
as `none`) exactly when the message lacks the `payload` key, the payload
lacks the `headers` key, or the message lacks the `id` key; and whenever it
succeeds, the `labels` and `snippet` fields come from `labelIds` and
`snippet` with the defaults `[]` and `""` applied when those keys are
missing. -/
theorem c9_required_keys (message : Message) :
    ((parse_email_content message).isNone =
      (message.payload.isNone ||
        (match message.payload with
         | some p => p.headers.isNone
         | none => false) ||
        message.id.isNone)) ∧
    (parse_email_content message).map Email.labels =
      (parse_email_content message).map (fun _ => message.labelIds.getD []) ∧
    (parse_email_content message).map Email.snippet =
      (parse_email_content message).map (fun _ => message.snippet.getD []) := by
  obtain ⟨i, p, l, s⟩ := message
  cases p with
  | none => simp [parse_email_content]
  | some payload =>
    cases hh : payload.headers with
    | none => simp [parse_email_content, hh]
    | some hs =>
      cases i with
      | none => simp [parse_email_content, hh]
      | some iv => simp [parse_email_content, hh]

/-- Claim C10: the first-line fallback of the classification-response
parser matches `NO` as a substring, not as a token — for every non-empty
response whose first whitespace-delimited token uppercases to neither
`YES` nor `NO`, if the uppercased first line contains the letter sequence
`NO` (possibly inside another word) and does not contain `YES`, the parser
returns not-necessary rather than the fail-safe default. -/
theorem c10_substring_fallback (r : Str) (h0 : r ≠ [])
    (h1 : first_word r ≠ "YES".toList) (h2 : first_word r ≠ "NO".toList)
    (h3 : pyIn "NO".toList (first_line_upper r) = true)
    (h4 : pyIn "YES".toList (first_line_upper r) = false) :
    parse_necessity_response r = false := by
  unfold parse_necessity_response
  rw [if_neg h0, if_neg h1, if_neg h2]
  dsimp only
  rw [h3, h4]
  decide

/-- Witness for C10 at the response `"Not sure"`: its first token `NOT` is
neither `YES` nor `NO`, its uppercased first line contains `NO` (inside
`NOT`) and no `YES`, and the parser returns not-necessary. -/
theorem c10_witness :
    first_word "Not sure".toList ≠ "YES".toList ∧
    first_word "Not sure".toList ≠ "NO".toList ∧
    pyIn "NO".toList (first_line_upper "Not sure".toList) = true ∧
    pyIn "YES".toList (first_line_upper "Not sure".toList) = false ∧
    parse_necessity_response "Not sure".toList = false :=
  ⟨by decide, by decide, by decide, by decide,
    c10_substring_fallback "Not sure".toList (by decide) (by decide)
      (by decide) (by decide) (by decide)⟩

/-- Specification-shaped description of header resolution (following the
words of the spec, to be compared with the dict built by the code): the
value of the last pair in `hs` whose name lowercases to `k`, or `dflt`
when there is none. -/
def lastLowerValue : List (Str × Str) → Str → Str → Str
  | [], _, dflt => dflt
  | h :: t, k, dflt =>
    if pyLower h.1 = k then lastLowerValue t k h.2 else lastLowerValue t k dflt

/-- Looking up a key just set returns the value set. -/
theorem dictGet_dictSet_self (d : List (Str × Str)) (k v dflt : Str) :
    dictGet (dictSet d k v) k dflt = v := by
  induction d with
  | nil => simp [dictSet, dictGet]
  | cons hd t ih =>
    obtain ⟨k0, v0⟩ := hd
    by_cases h : k0 = k
    · simp [dictSet, dictGet, h]
    · simp [dictSet, dictGet, h, ih]

/-- Setting one key leaves lookups of any other key unchanged. -/
theorem dictGet_dictSet_ne (d : List (Str × Str)) (k' k v dflt : Str)
    (h : k' ≠ k) : dictGet (dictSet d k' v) k dflt = dictGet d k dflt := by
  induction d with
  | nil => simp [dictSet, dictGet, h]
  | cons hd t ih =>
    obtain ⟨k0, v0⟩ := hd
    by_cases h0 : k0 = k'
    · subst h0
      simp only [dictSet, if_pos rfl, dictGet]
      rw [if_neg h, if_neg h]
    · simp only [dictSet, if_neg h0, dictGet]
      by_cases h1 : k0 = k
      · rw [if_pos h1, if_pos h1]
      · rw [if_neg h1, if_neg h1]
        exact ih

/-- The header dict built by the loop of `parse_email_content` resolves
every key to the value of the last input pair whose lowercased name equals
it, with the lookup default applying when no pair matches. -/
theorem dictGet_headers_foldl (hs : List (Str × Str)) :
    ∀ (d0 : List (Str × Str)) (k dflt : Str),
      dictGet (hs.foldl (fun d h => dictSet d (pyLower h.1) h.2) d0) k dflt =
        lastLowerValue hs k (dictGet d0 k dflt) := by
  induction hs with
  | nil => intro d0 k dflt; rfl
  | cons h t ih =>
    intro d0 k dflt
    rw [List.foldl_cons, ih]
    by_cases hk : pyLower h.1 = k
    · rw [lastLowerValue, if_pos hk, hk, dictGet_dictSet_self]
    · rw [lastLowerValue, if_neg hk, dictGet_dictSet_ne _ _ _ _ _ hk]

/-- Inversion of a successful run of `parse_email_content`: the three
required keys were present, and every field of the produced record has the
shape the code computes. -/
theorem parse_email_content_some_inv (message : Message) (e : Email)
    (hp : parse_email_content message = some e) :
    ∃ payload hs i,
      message.payload = some payload ∧ payload.headers = some hs ∧
      message.id = some i ∧
      e.subject = dictGet (hs.foldl (fun d h => dictSet d (pyLower h.1) h.2) [])
        "subject".toList "(No Subject)".toList ∧
      e.sender = dictGet (hs.foldl (fun d h => dictSet d (pyLower h.1) h.2) [])
        "from".toList "(No Sender)".toList ∧
      e.date = dictGet (hs.foldl (fun d h => dictSet d (pyLower h.1) h.2) [])
        "date".toList "(No Date)".toList ∧
      e.body = pyStrip (sub_ws
        (if (extract_body_content payload [] []).2 ≠ []
         then (extract_body_content payload [] []).2
         else extract_text_from_html (extract_body_content payload [] []).1)) := by
  unfold parse_email_content at hp
  cases hpm : message.payload with
  | none => rw [hpm] at hp; exact Option.noConfusion hp
  | some payload =>
    rw [hpm] at hp
    dsimp only at hp
    cases hh : payload.headers with
    | none => rw [hh] at hp; exact Option.noConfusion hp
    | some hs =>
      rw [hh] at hp
      dsimp only at hp
      cases hid : message.id with
      | none => rw [hid] at hp; exact Option.noConfusion hp
      | some i =>
        rw [hid] at hp
        dsimp only at hp
        rw [Option.some.injEq] at hp
        subst hp
        exact ⟨payload, hs, i, rfl, hh, rfl, rfl, rfl, rfl, rfl⟩

/-- Claim C4: whenever `parse_email_content` succeeds on a message with a
payload, its body is the whitespace-collapsed plain-text accumulator
whenever that accumulator is non-empty — the HTML accumulator being ignored
— and the whitespace-collapsed HTML reduction only when the plain-text
accumulator is empty; the choice depends only on the two accumulated
strings, not on where the parts appeared in the tree. -/
theorem c4_plain_text_wins (message : Message) (payload : Part) (e : Email)
    (hpay : message.payload = some payload)
    (hp : parse_email_content message = some e) :
    ((extract_body_content payload [] []).2 ≠ [] →
      e.body = pyStrip (sub_ws (extract_body_content payload [] []).2)) ∧
    ((extract_body_content payload [] []).2 = [] →
      e.body = pyStrip (sub_ws (extract_text_from_html
        (extract_body_content payload [] []).1))) := by
  obtain ⟨payload', hs, i, hpay', hh, hid, _, _, _, hbody⟩ :=
    parse_email_content_some_inv message e hp
  rw [hpay] at hpay'
  injection hpay' with heq
  subst heq
  constructor
  · intro hne
    rw [hbody, if_pos hne]
  · intro hnil
    rw [hbody, if_neg (fun hcon => hcon hnil)]

/-- Witness for C4 at `msgBoth`, which carries both an HTML part and a
plain-text part (HTML first in the tree): the plain-text accumulator is
non-empty and the body is its whitespace-collapsed value. -/
theorem c4_witness :
    (extract_body_content partBoth [] []).2 ≠ [] ∧
    emailBoth.body =
      pyStrip (sub_ws (extract_body_content partBoth [] []).2) :=
  ⟨by decide,
    (c4_plain_text_wins msgBoth partBoth emailBoth rfl (by decide)).1
      (by decide)⟩

/-- Claim C5: header extraction resolves subject, sender and date through a
lookup keyed by lowercased header name in which the last input pair whose
name lowercases to the key wins, and a missing key yields exactly
`"(No Subject)"` / `"(No Sender)"` / `"(No Date)"` (the embedding returns
total strings: no exception, no null). -/
theorem c5_header_lookup (message : Message) (payload : Part)
    (hs : List (Str × Str)) (e : Email)
    (hpay : message.payload = some payload) (hh : payload.headers = some hs)
    (hp : parse_email_content message = some e) :
    e.subject = lastLowerValue hs "subject".toList "(No Subject)".toList ∧
    e.sender = lastLowerValue hs "from".toList "(No Sender)".toList ∧
    e.date = lastLowerValue hs "date".toList "(No Date)".toList := by
  obtain ⟨payload', hs', i, hpay', hh', hid, hsub, hsen, hdat, _⟩ :=
    parse_email_content_some_inv message e hp
  rw [hpay] at hpay'
  injection hpay' with heq
  subst heq
  rw [hh] at hh'
  injection hh' with heq2
  subst heq2
  refine ⟨?_, ?_, ?_⟩
  · rw [hsub, dictGet_headers_foldl]
    rfl
  · rw [hsen, dictGet_headers_foldl]
    rfl
  · rw [hdat, dictGet_headers_foldl]
    rfl

/-- Witness for C5 at the specification scenario
`[("From","a@x.com"), ("from","b@y.com")]`: the sender resolves to the last
occurrence `"b@y.com"`, and the missing subject and date keys resolve to
their default strings. -/
theorem c5_witness :
    emailDup.sender = lastLowerValue hsDup "from".toList "(No Sender)".toList ∧
    lastLowerValue hsDup "from".toList "(No Sender)".toList = "b@y.com".toList ∧
    emailDup.subject = "(No Subject)".toList ∧
    emailDup.date = "(No Date)".toList :=
  ⟨(c5_header_lookup msgDup (Part.mk (some hsDup) none none PartList.nil)
      hsDup emailDup rfl rfl (by decide)).2.1,
    by decide, by decide, by decide⟩

/-- No two adjacent characters of the string are both whitespace. -/
def noAdjWs : Str → Bool
  | [] => true
  | [_] => true
  | a :: b :: rest => !(pySpace a && pySpace b) && noAdjWs (b :: rest)

/-- Decidable statement that a string is whitespace-normalized in the
sense of the claim: it contains no newline, no two adjacent whitespace
characters, and neither leading nor trailing whitespace. -/
def wsNormalized (s : Str) : Bool :=
  !(decide ('\n' ∈ s)) && noAdjWs s &&
  (match s.head? with | some c => !(pySpace c) | none => true) &&
  (match s.getLast? with | some c => !(pySpace c) | none => true)

/-- The head of the squeeze loop's output, when the loop starts inside a
run, never satisfies the run predicate. -/
theorem squeezeGo_inRun_head (p : Char → Bool) (rep : Char) : ∀ (s : Str)
    (c : Char), (squeezeGo p rep true s).head? = some c → p c = false := by
  intro s
  induction s with
  | nil => intro c hc; exact Option.noConfusion hc
  | cons a rest ih =>
    intro c hc
    cases hpa : p a with
    | true =>
      simp only [squeezeGo, hpa] at hc
      exact ih c hc
    | false =>
      simp only [squeezeGo, hpa, List.head?_cons, Option.some.injEq] at hc
      exact hc ▸ hpa

/-- Every whitespace character in the output of the whitespace squeeze is
the replacement space. -/
theorem sub_ws_ws_space : ∀ (s : Str) (b : Bool) (c : Char),
    c ∈ squeezeGo pySpace ' ' b s → pySpace c = true → c = ' ' := by
  intro s
  induction s with
  | nil => intro b c hc; simp [squeezeGo] at hc
  | cons a rest ih =>
    intro b c hc hw
    cases hpa : pySpace a with
    | true =>
      cases b with
      | true =>
        simp only [squeezeGo, hpa] at hc
        exact ih true c hc hw
      | false =>
        simp only [squeezeGo, hpa, List.mem_cons] at hc
        rcases hc with h1 | h2
        · exact h1
        · exact ih true c h2 hw
    | false =>
      simp only [squeezeGo, hpa, List.mem_cons] at hc
      rcases hc with h1 | h2
      · rw [h1] at hw
        rw [hw] at hpa
        exact Bool.noConfusion hpa
      · exact ih false c h2 hw

/-- Dropping the head preserves adjacent-whitespace freedom. -/
theorem noAdjWs_tail {a : Char} {l : Str} (h : noAdjWs (a :: l) = true) :
    noAdjWs l = true := by
  cases l with
  | nil => rfl
  | cons b t =>
    simp only [noAdjWs, Bool.and_eq_true] at h
    exact h.2

/-- A character whose pairing with the head of `l` is not a whitespace
pair can be prepended to an adjacent-whitespace-free `l`. -/
theorem noAdjWs_cons {a : Char} {l : Str}
    (hhead : ∀ b, l.head? = some b → (pySpace a && pySpace b) = false)
    (h : noAdjWs l = true) : noAdjWs (a :: l) = true := by
  cases l with
  | nil => rfl
  | cons b t =>
    simp only [noAdjWs, Bool.and_eq_true, Bool.not_eq_true']
    exact ⟨hhead b List.head?_cons, h⟩

/-- The whitespace squeeze never leaves two adjacent whitespace
characters. -/
theorem noAdjWs_squeezeGo : ∀ (s : Str) (b : Bool),
    noAdjWs (squeezeGo pySpace ' ' b s) = true := by
  intro s
  induction s with
  | nil => intro b; rfl
  | cons a rest ih =>
    intro b
    cases hpa : pySpace a with
    | true =>
      cases b with
      | true =>
        simp only [squeezeGo, hpa]
        exact ih true
      | false =>
        simp only [squeezeGo, hpa]
        refine noAdjWs_cons ?_ (ih true)
        intro d hd
        rw [squeezeGo_inRun_head pySpace ' ' rest d hd, Bool.and_false]
    | false =>
      simp only [squeezeGo, hpa]
      refine noAdjWs_cons ?_ (ih false)
      intro d _
      rw [hpa, Bool.false_and]

/-- Membership in the right-stripped string implies membership in the
original. -/
theorem mem_pyRStrip {c : Char} : ∀ {l : Str}, c ∈ pyRStrip l → c ∈ l := by
  intro l
  induction l with
  | nil => intro h; exact h
  | cons a t ih =>
    intro h
    simp only [pyRStrip] at h
    split at h
    · exact absurd h (List.not_mem_nil c)
    · rcases List.mem_cons.mp h with h1 | h2
      · exact h1 ▸ List.mem_cons_self a t
      · exact List.mem_cons_of_mem a (ih h2)

/-- The right strip preserves the head of the string when its result is
non-empty. -/
theorem pyRStrip_head? : ∀ {l : Str} {c : Char},
    (pyRStrip l).head? = some c → l.head? = some c := by
  intro l c
  cases l with
  | nil => intro h; exact Option.noConfusion h
  | cons a t =>
    intro h
    simp only [pyRStrip] at h
    split at h
    · exact Option.noConfusion h
    · rw [List.head?_cons] at h
      rw [List.head?_cons]
      exact h

/-- The right strip preserves adjacent-whitespace freedom. -/
theorem noAdjWs_pyRStrip : ∀ {l : Str}, noAdjWs l = true →
    noAdjWs (pyRStrip l) = true := by
  intro l
  induction l with
  | nil => intro _; rfl
  | cons a t ih =>
    intro h
    simp only [pyRStrip]
    split
    · rfl
    · refine noAdjWs_cons ?_ (ih (noAdjWs_tail h))
      intro d hd
      have hdt : t.head? = some d := pyRStrip_head? hd
      cases t with
      | nil => exact Option.noConfusion hdt
      | cons b t2 =>
        rw [List.head?_cons, Option.some.injEq] at hdt
        subst hdt
        simp only [noAdjWs, Bool.and_eq_true, Bool.not_eq_true'] at h
        exact h.1

/-- The last character left by the right strip is never whitespace. -/
theorem pyRStrip_getLast?_not_space : ∀ {l : Str} {c : Char},
    (pyRStrip l).getLast? = some c → pySpace c = false := by
  intro l
  induction l with
  | nil => intro c h; exact Option.noConfusion h
  | cons a t ih =>
    intro c h
    simp only [pyRStrip] at h
    split at h
    · exact Option.noConfusion h
    · rename_i hcond
      cases hrt : pyRStrip t with
      | nil =>
        rw [hrt, List.getLast?_singleton, Option.some.injEq] at h
        rw [← h]
        rcases Bool.eq_false_or_eq_true (pySpace a) with ht | hf
        · exact absurd ⟨hrt, ht⟩ hcond
        · exact hf
      | cons b t2 =>
        rw [hrt, List.getLast?_cons_cons] at h
        exact ih (hrt ▸ h)

/-- The head of a `dropWhile` result never satisfies the predicate. -/
theorem dropWhile_head?_false (p : Char → Bool) : ∀ (l : Str) {c : Char},
    (l.dropWhile p).head? = some c → p c = false := by
  intro l
  induction l with
  | nil => intro c h; exact Option.noConfusion h
  | cons a t ih =>
    intro c h
    rw [List.dropWhile_cons] at h
    split at h
    · exact ih h
    · rename_i hpa
      rw [List.head?_cons, Option.some.injEq] at h
      subst h
      exact Bool.of_not_eq_true hpa

/-- Dropping a whitespace prefix preserves adjacent-whitespace freedom. -/
theorem noAdjWs_dropWhile (p : Char → Bool) : ∀ (l : Str),
    noAdjWs l = true → noAdjWs (l.dropWhile p) = true := by
  intro l
  induction l with
  | nil => intro h; exact h
  | cons a t ih =>
    intro h
    rw [List.dropWhile_cons]
    split
    · exact ih (noAdjWs_tail h)
    · exact h

/-- Collapsing whitespace runs and stripping always yields a
whitespace-normalized string. -/
theorem wsNormalized_strip_squeeze (s : Str) :
    wsNormalized (pyStrip (sub_ws s)) = true := by
  have hnl : ¬ ('\n' ∈ pyStrip (sub_ws s)) := by
    intro hmem
    have h1 : '\n' ∈ (squeezeGo pySpace ' ' false s).dropWhile pySpace :=
      mem_pyRStrip hmem
    have h2 : '\n' ∈ squeezeGo pySpace ' ' false s :=
      (List.dropWhile_sublist pySpace).subset h1
    have h3 : ('\n' : Char) = ' ' := sub_ws_ws_space s false '\n' h2 (by decide)
    exact absurd h3 (by decide)
  have hadj : noAdjWs (pyStrip (sub_ws s)) = true :=
    noAdjWs_pyRStrip (noAdjWs_dropWhile pySpace _ (noAdjWs_squeezeGo s false))
  have hhead : (match (pyStrip (sub_ws s)).head? with
      | some c => !(pySpace c) | none => true) = true := by
    cases hrh : (pyStrip (sub_ws s)).head? with
    | none => rfl
    | some c =>
      have hc : pySpace c = false :=
        dropWhile_head?_false pySpace _ (pyRStrip_head? hrh)
      simp [hc]
  have hlast : (match (pyStrip (sub_ws s)).getLast? with
      | some c => !(pySpace c) | none => true) = true := by
    cases hrl : (pyStrip (sub_ws s)).getLast? with
    | none => rfl
    | some c =>
      have hc : pySpace c = false := pyRStrip_getLast?_not_space hrl
      simp [hc]
  rw [wsNormalized, hhead, hlast, hadj, decide_eq_false hnl]
  rfl

/-- Claim C8: whenever `parse_email_content` succeeds, the body of the
returned record is whitespace-normalized — it contains no newline, no two
adjacent whitespace characters, and no leading or trailing whitespace
(final `re.sub(r'\s+', ' ', body).strip()`). -/
theorem c8_body_whitespace_normalized (message : Message) (e : Email)
    (hp : parse_email_content message = some e) :
    wsNormalized e.body = true := by
  obtain ⟨payload, hs, i, _, _, _, _, _, _, hbody⟩ :=
    parse_email_content_some_inv message e hp
  rw [hbody]
  exact wsNormalized_strip_squeeze _

/-- Witness for C8 at the concrete message `msgSiblingTexts`. -/
theorem c8_witness : wsNormalized emailSibling.body = true :=
  c8_body_whitespace_normalized msgSiblingTexts emailSibling (by decide)

end GmailFilter
